import Mathlib

/-!
Verification of the Phoenyra EMS core control logic against its
natural-language specification.  The definitions below are shallow
embeddings of the Python sources, in particular
src/app/ems/power_control.py, src/app/ems/controller.py,
src/app/ems/strategy_manager.py, src/app/ems/optimizers/lp_optimizer.py,
src/app/ems/strategies/peak_shaving_strategy.py and
src/app/services/communication/modbus_client.py.  Real-valued Python
floats are modelled as rationals, Python None via Option, and Python
exceptions via Option or an explicit outcome type.
-/

namespace Phoenyra

/-- Python builtin max on two numbers (returns the first argument on ties). -/
def pyMax (a b : ℚ) : ℚ := if b ≤ a then a else b

/-- Python builtin min on two numbers (returns the first argument on ties). -/
def pyMin (a b : ℚ) : ℚ := if a ≤ b then a else b

/-- Python builtin abs on a number. -/
def pyAbs (q : ℚ) : ℚ := if q < 0 then -q else q

lemma pyMax_eq (a b : ℚ) : pyMax a b = max a b := by
  unfold pyMax
  rw [max_comm, max_def]

lemma pyMin_eq (a b : ℚ) : pyMin a b = min a b := (min_def a b).symm

lemma pyAbs_eq (q : ℚ) : pyAbs q = |q| := by
  unfold pyAbs
  rcases lt_or_le q 0 with h | h
  · rw [if_pos h, abs_of_neg h]
  · rw [if_neg (not_lt.mpr h), abs_of_nonneg h]

/-- Relevant input signals of the power control layer
(power_control.py, dataclass SignalState). -/
structure SignalState where
  dso_trip : Bool := false
  safety_alarm : Bool := false
  dso_limit_pct : Option ℚ := none
deriving Repr, DecidableEq

/-- Battery constraint keys read by
PowerControlManager._determine_max_power_kw (controller constraints dict). -/
structure PcConstraints where
  power_discharge_max_kw : ℚ := 0
  power_charge_max_kw : ℚ := 0
deriving Repr, DecidableEq

/-- Static configuration of PowerControlManager (power_control.py, __init__):
enabled flag and the optional max_power_kw from the power_control config. -/
structure PcConfig where
  enabled : Bool := false
  max_power_kw : Option ℚ := none
deriving Repr, DecidableEq

/-- Result record of PowerControlManager.compute_decision
(power_control.py, dataclass PowerControlDecision; the commands map is
not needed by the claims and is omitted). -/
structure PowerControlDecision where
  requested_power_kw : ℚ
  effective_power_kw : ℚ
  shutdown : Bool
  dso_trip : Bool
  safety_alarm : Bool
  dso_limit_pct : Option ℚ
  limit_kw : Option ℚ
  reason : String
deriving Repr, DecidableEq

/-- PowerControlManager._determine_max_power_kw, fallback branch: the
maximum of the absolute charge and discharge limits and the absolute
requested power; None when that maximum is not positive. -/
def fallbackMaxPowerKw (c : PcConstraints) (requested_power_kw : ℚ) : Option ℚ :=
  let discharge := pyAbs c.power_discharge_max_kw
  let charge := pyAbs c.power_charge_max_kw
  let maxKw := pyMax (pyMax discharge charge) (pyAbs requested_power_kw)
  if 0 < maxKw then some maxKw else none

/-- PowerControlManager._determine_max_power_kw.  Python truthiness:
`if self.max_power_kw:` treats both None and 0.0 as false and falls
through to the constraints-based fallback. -/
def determineMaxPowerKw (cfg : PcConfig) (c : PcConstraints) (requested_power_kw : ℚ) :
    Option ℚ :=
  match cfg.max_power_kw with
  | some m => if m ≠ 0 then some (pyAbs m) else fallbackMaxPowerKw c requested_power_kw
  | none => fallbackMaxPowerKw c requested_power_kw

/-- PowerControlManager._apply_limit: clamp the magnitude of value_kw to
the absolute limit, preserving the sign. -/
def applyLimit (value_kw limit_kw : ℚ) : ℚ :=
  let l := pyAbs limit_kw
  if 0 ≤ value_kw then pyMin value_kw l else -(pyMin (pyAbs value_kw) l)

/-- PowerControlManager.compute_decision.  The Python guard
`state.dso_limit_pct is not None and max_kw` requires both a present
percentage and a truthy (hence positive, by construction of
determineMaxPowerKw) max power; the limits dict then holds the single
entry dso_limit_pct, which sorted(...) returns unchanged. -/
def computeDecision (cfg : PcConfig) (state : SignalState)
    (requested_power_kw : ℚ) (constraints : PcConstraints) : PowerControlDecision :=
  if cfg.enabled = false then
    { requested_power_kw := requested_power_kw
      effective_power_kw := requested_power_kw
      shutdown := false
      dso_trip := state.dso_trip
      safety_alarm := state.safety_alarm
      dso_limit_pct := state.dso_limit_pct
      limit_kw := none
      reason := "power_control_disabled" }
  else
    let maxKw := determineMaxPowerKw cfg constraints requested_power_kw
    if state.dso_trip then
      { requested_power_kw := requested_power_kw
        effective_power_kw := 0
        shutdown := true
        dso_trip := state.dso_trip
        safety_alarm := state.safety_alarm
        dso_limit_pct := state.dso_limit_pct
        limit_kw := none
        reason := "dso_trip" }
    else if state.safety_alarm then
      { requested_power_kw := requested_power_kw
        effective_power_kw := 0
        shutdown := true
        dso_trip := state.dso_trip
        safety_alarm := state.safety_alarm
        dso_limit_pct := state.dso_limit_pct
        limit_kw := none
        reason := "safety_alarm" }
    else
      match state.dso_limit_pct, maxKw with
      | some pct, some m =>
          let limit := pyMax 0 (m * (pct / 100))
          { requested_power_kw := requested_power_kw
            effective_power_kw := applyLimit requested_power_kw limit
            shutdown := false
            dso_trip := state.dso_trip
            safety_alarm := state.safety_alarm
            dso_limit_pct := state.dso_limit_pct
            limit_kw := some limit
            reason := "dso_limit_pct" }
      | _, _ =>
          { requested_power_kw := requested_power_kw
            effective_power_kw := requested_power_kw
            shutdown := false
            dso_trip := state.dso_trip
            safety_alarm := state.safety_alarm
            dso_limit_pct := state.dso_limit_pct
            limit_kw := none
            reason := "plan" }

/-- Sign function used to state the spec formula
`effective = sgn(requested) * min(|requested|, limit_kw)`. -/
def sgn (q : ℚ) : ℚ :=
  if 0 < q then 1 else if q < 0 then -1 else 0

lemma abs_applyLimit_le_abs (v l : ℚ) : |applyLimit v l| ≤ |v| := by
  simp only [applyLimit, pyAbs_eq, pyMin_eq]
  by_cases h : 0 ≤ v
  · simp only [if_pos h]
    rw [abs_of_nonneg (le_min h (abs_nonneg l)), abs_of_nonneg h]
    exact min_le_left _ _
  · simp only [if_neg h]
    rw [abs_neg, abs_of_nonneg (le_min (abs_nonneg v) (abs_nonneg l))]
    exact min_le_left _ _

lemma abs_applyLimit_le_abs_limit (v l : ℚ) : |applyLimit v l| ≤ |l| := by
  simp only [applyLimit, pyAbs_eq, pyMin_eq]
  by_cases h : 0 ≤ v
  · simp only [if_pos h]
    rw [abs_of_nonneg (le_min h (abs_nonneg l))]
    exact min_le_right _ _
  · simp only [if_neg h]
    rw [abs_neg, abs_of_nonneg (le_min (abs_nonneg v) (abs_nonneg l))]
    exact min_le_right _ _

lemma applyLimit_mul_nonneg (v l : ℚ) : 0 ≤ applyLimit v l * v := by
  simp only [applyLimit, pyAbs_eq, pyMin_eq]
  by_cases h : 0 ≤ v
  · simp only [if_pos h]
    exact mul_nonneg (le_min h (abs_nonneg l)) h
  · simp only [if_neg h]
    push_neg at h
    have h1 : 0 ≤ min |v| |l| := le_min (abs_nonneg v) (abs_nonneg l)
    nlinarith

/-- Claim C10: compute_decision never amplifies or reverses the request:
the effective power has the same sign as the requested power (their
product is nonnegative) and no larger magnitude, in every mode
including enabled = false. -/
theorem compute_decision_no_amplification (cfg : PcConfig) (st : SignalState)
    (req : ℚ) (c : PcConstraints) :
    0 ≤ (computeDecision cfg st req c).effective_power_kw * req ∧
    |(computeDecision cfg st req c).effective_power_kw| ≤ |req| := by
  unfold computeDecision
  by_cases hen : cfg.enabled = false
  · simp only [if_pos hen]
    exact ⟨mul_self_nonneg req, le_refl _⟩
  · simp only [if_neg hen]
    by_cases htrip : st.dso_trip = true
    · simp only [if_pos htrip]
      exact ⟨by simp, by simp [abs_nonneg]⟩
    · simp only [if_neg htrip]
      by_cases halarm : st.safety_alarm = true
      · simp only [if_pos halarm]
        exact ⟨by simp, by simp [abs_nonneg]⟩
      · simp only [if_neg halarm]
        rcases hpct : st.dso_limit_pct with _ | pct <;>
          rcases hmax : determineMaxPowerKw cfg c req with _ | m <;>
          simp only []
        · exact ⟨mul_self_nonneg req, le_refl _⟩
        · exact ⟨mul_self_nonneg req, le_refl _⟩
        · exact ⟨mul_self_nonneg req, le_refl _⟩
        · exact ⟨applyLimit_mul_nonneg _ _, abs_applyLimit_le_abs _ _⟩

/-- Claim C1 as stated fails on the code: with the manager enabled, no
signals and no DSO limit, compute_decision passes the requested 100 kW
through unchanged although both power constraint bounds are 10 kW. -/
theorem compute_decision_bound_counterexample :
    ¬ |(computeDecision ⟨true, none⟩ ⟨false, false, none⟩ 100
          ⟨10, 10⟩).effective_power_kw| ≤
        max (⟨10, 10⟩ : PcConstraints).power_charge_max_kw
          (⟨10, 10⟩ : PcConstraints).power_discharge_max_kw := by
  norm_num [computeDecision]

/-- Claim C1 (amended): for every decision of compute_decision,
|effective_kw| is bounded by the maximum of p_charge_max_kw,
p_discharge_max_kw and |requested_kw| (the bound without the requested
term fails, see the counterexample); |effective_kw| ≤ limit_kw whenever
limit_kw is set; and shutdown implies effective_kw = 0. -/
theorem compute_decision_invariants (cfg : PcConfig) (st : SignalState)
    (req : ℚ) (c : PcConstraints) :
    |(computeDecision cfg st req c).effective_power_kw| ≤
      max (max c.power_charge_max_kw c.power_discharge_max_kw) |req| ∧
    (∀ l, (computeDecision cfg st req c).limit_kw = some l →
      |(computeDecision cfg st req c).effective_power_kw| ≤ l) ∧
    ((computeDecision cfg st req c).shutdown = true →
      (computeDecision cfg st req c).effective_power_kw = 0) := by
  have habs : |req| ≤ max (max c.power_charge_max_kw c.power_discharge_max_kw) |req| :=
    le_max_right _ _
  have hz : |(0:ℚ)| ≤ max (max c.power_charge_max_kw c.power_discharge_max_kw) |req| := by
    rw [abs_zero]
    exact le_trans (abs_nonneg req) habs
  unfold computeDecision
  by_cases hen : cfg.enabled = false
  · simp only [if_pos hen]
    exact ⟨habs, fun l hl => Option.noConfusion hl, fun h => Bool.noConfusion h⟩
  · simp only [if_neg hen]
    by_cases htrip : st.dso_trip = true
    · simp only [if_pos htrip]
      exact ⟨hz, fun l hl => Option.noConfusion hl, fun _ => trivial⟩
    · simp only [if_neg htrip]
      by_cases halarm : st.safety_alarm = true
      · simp only [if_pos halarm]
        exact ⟨hz, fun l hl => Option.noConfusion hl, fun _ => trivial⟩
      · simp only [if_neg halarm]
        rcases hpct : st.dso_limit_pct with _ | pct <;>
          rcases hmax : determineMaxPowerKw cfg c req with _ | m <;>
          simp only []
        · exact ⟨habs, fun l hl => Option.noConfusion hl, fun h => Bool.noConfusion h⟩
        · exact ⟨habs, fun l hl => Option.noConfusion hl, fun h => Bool.noConfusion h⟩
        · exact ⟨habs, fun l hl => Option.noConfusion hl, fun h => Bool.noConfusion h⟩
        · refine ⟨le_trans (abs_applyLimit_le_abs _ _) habs, ?_, fun h => Bool.noConfusion h⟩
          intro l hl
          have hll : pyMax 0 (m * (pct / 100)) = l := by
            simpa using hl
          calc |applyLimit req (pyMax 0 (m * (pct / 100)))|
              ≤ |pyMax 0 (m * (pct / 100))| := abs_applyLimit_le_abs_limit _ _
            _ = pyMax 0 (m * (pct / 100)) := by
                rw [pyMax_eq]
                exact abs_of_nonneg (le_max_left _ _)
            _ = l := hll

/-- Witness for compute_decision_invariants: a concrete decision with a
shutdown (dso_trip set) and one with an active 50 percent DSO limit. -/
theorem compute_decision_invariants_witness :
    (computeDecision ⟨true, some 100⟩ ⟨true, false, none⟩ 80 ⟨10, 10⟩).effective_power_kw = 0 ∧
    |(computeDecision ⟨true, some 100⟩ ⟨false, false, some 50⟩ 80
        ⟨10, 10⟩).effective_power_kw| ≤ 50 :=
  ⟨(compute_decision_invariants ⟨true, some 100⟩ ⟨true, false, none⟩ 80 ⟨10, 10⟩).2.2
      rfl,
   (compute_decision_invariants ⟨true, some 100⟩ ⟨false, false, some 50⟩ 80 ⟨10, 10⟩).2.1
      50 (by norm_num [computeDecision, determineMaxPowerKw, pyAbs, pyMax])⟩

/-- Claim C2: with the manager enabled, a set dso_trip signal forces
shutdown with zero effective power and reason dso_trip, regardless of
safety_alarm and any DSO limit; with dso_trip clear, a set safety_alarm
forces shutdown with zero effective power and reason safety_alarm. -/
theorem compute_decision_precedence (cfg : PcConfig) (st : SignalState)
    (req : ℚ) (c : PcConstraints) (hen : cfg.enabled = true) :
    (st.dso_trip = true →
      (computeDecision cfg st req c).shutdown = true ∧
      (computeDecision cfg st req c).effective_power_kw = 0 ∧
      (computeDecision cfg st req c).reason = "dso_trip") ∧
    (st.dso_trip = false → st.safety_alarm = true →
      (computeDecision cfg st req c).shutdown = true ∧
      (computeDecision cfg st req c).effective_power_kw = 0 ∧
      (computeDecision cfg st req c).reason = "safety_alarm") := by
  constructor
  · intro htrip
    unfold computeDecision
    simp [hen, htrip]
  · intro htrip halarm
    unfold computeDecision
    simp [hen, htrip, halarm]

/-- Witness for compute_decision_precedence: a trip decision taken with
safety_alarm and a DSO limit simultaneously present, and an alarm
decision taken with a DSO limit present. -/
theorem compute_decision_precedence_witness :
    (computeDecision ⟨true, some 100⟩ ⟨true, true, some 50⟩ 80 ⟨10, 10⟩).reason = "dso_trip" ∧
    (computeDecision ⟨true, some 100⟩ ⟨true, true, some 50⟩ 80 ⟨10, 10⟩).effective_power_kw = 0 ∧
    (computeDecision ⟨true, some 100⟩ ⟨false, true, some 50⟩ 80 ⟨10, 10⟩).reason = "safety_alarm" :=
  ⟨((compute_decision_precedence ⟨true, some 100⟩ ⟨true, true, some 50⟩ 80 ⟨10, 10⟩ rfl).1
      rfl).2.2,
   ((compute_decision_precedence ⟨true, some 100⟩ ⟨true, true, some 50⟩ 80 ⟨10, 10⟩ rfl).1
      rfl).2.1,
   ((compute_decision_precedence ⟨true, some 100⟩ ⟨false, true, some 50⟩ 80 ⟨10, 10⟩ rfl).2
      rfl rfl).2.2⟩

lemma applyLimit_eq_sgn_min (v l : ℚ) (hl : 0 ≤ l) :
    applyLimit v l = sgn v * min |v| l := by
  simp only [applyLimit, sgn, pyAbs_eq, pyMin_eq, abs_of_nonneg hl]
  rcases lt_trichotomy 0 v with h | h | h
  · rw [if_pos h.le, if_pos h, abs_of_pos h, one_mul]
  · subst h
    simp [min_eq_left hl]
  · rw [if_neg (not_le.mpr h), if_neg (asymm h), if_pos h, neg_one_mul]

/-- Claim C3: with the manager enabled, no trip and no alarm, a present
nonnegative DSO limit percentage p and a positive configured
max_power_kw m, compute_decision sets limit_kw = m * p / 100, clamps the
request to sgn(requested) * min(|requested|, limit_kw), and reports
reason dso_limit_pct. -/
theorem compute_decision_dso_limit (cfg : PcConfig) (st : SignalState)
    (req : ℚ) (c : PcConstraints) (p m : ℚ)
    (hen : cfg.enabled = true) (htrip : st.dso_trip = false)
    (halarm : st.safety_alarm = false) (hpct : st.dso_limit_pct = some p)
    (hp : 0 ≤ p) (hmax : cfg.max_power_kw = some m) (hm : 0 < m) :
    (computeDecision cfg st req c).limit_kw = some (m * (p / 100)) ∧
    (computeDecision cfg st req c).effective_power_kw =
      sgn req * min |req| (m * (p / 100)) ∧
    (computeDecision cfg st req c).reason = "dso_limit_pct" := by
  have hmk : determineMaxPowerKw cfg c req = some m := by
    unfold determineMaxPowerKw
    rw [hmax]
    simp [ne_of_gt hm, pyAbs_eq, abs_of_pos hm]
  have hlim : (0:ℚ) ≤ m * (p / 100) := by positivity
  have hmaxeq : pyMax 0 (m * (p / 100)) = m * (p / 100) := by
    rw [pyMax_eq]
    exact max_eq_right hlim
  refine ⟨?_, ?_, ?_⟩ <;>
    simp [computeDecision, hen, htrip, halarm, hpct, hmk, hmaxeq,
      applyLimit_eq_sgn_min req _ hlim]

/-- Witness for compute_decision_dso_limit: the concrete spec scenario
of a +80 kW request under a 50 percent DSO limit with 100 kW plant
power, giving an effective +50 kW. -/
theorem compute_decision_dso_limit_witness :
    (computeDecision ⟨true, some 100⟩ ⟨false, false, some 50⟩ 80 ⟨10, 10⟩).effective_power_kw
      = 50 ∧
    (computeDecision ⟨true, some 100⟩ ⟨false, false, some 50⟩ 80 ⟨10, 10⟩).reason
      = "dso_limit_pct" := by
  have h := compute_decision_dso_limit ⟨true, some 100⟩ ⟨false, false, some 50⟩ 80 ⟨10, 10⟩
    50 100 rfl rfl rfl rfl (by norm_num) rfl (by norm_num)
  refine ⟨?_, h.2.2⟩
  rw [h.2.1]
  norm_num [sgn]

/-- Mutable controller fields touched by the staleness-relevant part of
EmsCore.decide (controller.py, PlantState and EmsCore attributes); time
is modelled in seconds as a rational. -/
structure EmsTickState where
  live_telemetry : Bool
  last_telemetry : Option ℚ
  telemetry_source : String
  p_load : ℚ
  p_pv : ℚ
  p_bess : ℚ
  p_grid : ℚ
  setpoint_kw : ℚ
  remote_shutdown_requested : Bool
  power_limit_reason : String
  dso_limit_pct : Option ℚ
deriving Repr, DecidableEq

/-- EmsCore.decide (controller.py): staleness check, power-control
decision and simulated BESS response.  The requested setpoint looked up
from the plan is passed in; locking, history logging and command writes
do not affect the modelled fields.  The Python staleness guard is
`if self._live_telemetry and self._last_telemetry:` followed by the age
test, and the simulation branch is guarded by `if not
self._live_telemetry:`. -/
def decideTick (cfg : PcConfig) (sig : SignalState) (c : PcConstraints)
    (requested_setpoint_kw : ℚ) (now : ℚ) (st : EmsTickState) : EmsTickState :=
  let st1 :=
    match st.last_telemetry with
    | some t =>
        if st.live_telemetry ∧ now - t > 120 then
          { st with live_telemetry := false, telemetry_source := "simulation" }
        else st
    | none => st
  let d := computeDecision cfg sig requested_setpoint_kw c
  let st2 := { st1 with
    setpoint_kw := d.effective_power_kw
    remote_shutdown_requested := d.shutdown
    power_limit_reason := d.reason
    dso_limit_pct := match d.dso_limit_pct with
      | some v => some v
      | none => st1.dso_limit_pct }
  if st2.live_telemetry = false then
    { st2 with
      telemetry_source := "simulation"
      p_bess := st2.setpoint_kw
      p_grid := st2.p_load - st2.p_pv - st2.setpoint_kw }
  else st2

/-- Claim C4: when the last live telemetry sample is more than 120
seconds old at a controller tick, the tick sets telemetry_source to
simulation and synthesizes p_bess_kw = setpoint_kw and
p_grid_kw = p_load_kw - p_pv_kw - p_bess_kw, with the setpoint being
the effective power of the power-control decision. -/
theorem decide_staleness (cfg : PcConfig) (sig : SignalState) (c : PcConstraints)
    (req now : ℚ) (st : EmsTickState) (t : ℚ)
    (hlast : st.last_telemetry = some t) (hage : now - t > 120) :
    (decideTick cfg sig c req now st).telemetry_source = "simulation" ∧
    (decideTick cfg sig c req now st).p_bess = (decideTick cfg sig c req now st).setpoint_kw ∧
    (decideTick cfg sig c req now st).p_grid =
      (decideTick cfg sig c req now st).p_load - (decideTick cfg sig c req now st).p_pv -
        (decideTick cfg sig c req now st).p_bess ∧
    (decideTick cfg sig c req now st).setpoint_kw =
      (computeDecision cfg sig req c).effective_power_kw := by
  unfold decideTick
  rw [hlast]
  by_cases hlive : st.live_telemetry
  · simp [hlive, hage]
  · simp [hlive]

/-- Witness for decide_staleness: a live mqtt state whose single sample
is 121 seconds old flips to simulation and, with power control
disabled, takes over the requested 7 kW as simulated battery power. -/
theorem decide_staleness_witness :
    (decideTick ⟨false, none⟩ ⟨false, false, none⟩ ⟨10, 10⟩ 7 121
        ⟨true, some 0, "mqtt", 5, 2, 1, 1, 0, false, "plan", none⟩).telemetry_source
      = "simulation" ∧
    (decideTick ⟨false, none⟩ ⟨false, false, none⟩ ⟨10, 10⟩ 7 121
        ⟨true, some 0, "mqtt", 5, 2, 1, 1, 0, false, "plan", none⟩).p_bess = 7 := by
  have h := decide_staleness ⟨false, none⟩ ⟨false, false, none⟩ ⟨10, 10⟩ 7 121
    ⟨true, some 0, "mqtt", 5, 2, 1, 1, 0, false, "plan", none⟩ 0 rfl (by norm_num)
  refine ⟨h.1, ?_⟩
  rw [h.2.1, h.2.2.2]
  rfl

/-- Outcome of a Python call that may raise an exception. -/
inductive PyOutcome (α : Type) where
  | ok (value : α)
  | exc
deriving Repr, DecidableEq

/-- Result record of a strategy optimization (base_strategy.py,
dataclass StrategyResult; metadata and the separate revenue and cost
fields are omitted). -/
structure StrategyResultRec (T : Type) where
  schedule : List (T × ℚ)
  strategy_name : String
  confidence_score : ℚ
  expected_profit : ℚ
deriving Repr, DecidableEq

/-- StrategyManager.optimize_with_strategy (strategy_manager.py): a
raising strategy.optimize is caught and replaced by an empty
StrategyResult with confidence 0 and default profit 0. -/
def optimizeWithStrategy {T : Type} (strategy_name : String)
    (optimize_call : PyOutcome (StrategyResultRec T)) : StrategyResultRec T :=
  match optimize_call with
  | .ok r => r
  | .exc => { schedule := [], strategy_name := strategy_name,
              confidence_score := 0, expected_profit := 0 }

/-- Stored plan (controller.py, dataclass OptimizationPlan; created_at
and metadata omitted). -/
structure OptimizationPlanRec (T : Type) where
  schedule : List (T × ℚ)
  strategy_name : String
  expected_profit : ℚ
  confidence : ℚ
deriving Repr, DecidableEq

/-- Controller fields touched by EmsCore._run_optimization. -/
structure CtrlOptState (T : Type) where
  current_plan : Option (OptimizationPlanRec T)
  optimization_status : String
  active_strategy : String
deriving Repr, DecidableEq

/-- EmsCore._run_optimization (controller.py).  The preparation steps 1
to 3 (forecast fetch and strategy selection) either produce a strategy
name or raise; an exception there reaches the controller except branch,
which only sets optimization_status to failed and leaves the plan
untouched.  The optimize call is routed through
StrategyManager.optimize_with_strategy, which never raises; its result
is stored as the new plan and the status set to success. -/
def runOptimization {T : Type} (st : CtrlOptState T)
    (preparation : PyOutcome String)
    (optimize_call : PyOutcome (StrategyResultRec T)) : CtrlOptState T :=
  match preparation with
  | .exc => { st with optimization_status := "failed" }
  | .ok strategy_name =>
      let result := optimizeWithStrategy strategy_name optimize_call
      { st with
        active_strategy := strategy_name
        current_plan := some { schedule := result.schedule,
                               strategy_name := result.strategy_name,
                               expected_profit := result.expected_profit,
                               confidence := result.confidence_score }
        optimization_status := "success" }

/-- Claim C5 as stated fails on the code: when the selected strategy
optimization raises, the exception is swallowed inside
StrategyManager.optimize_with_strategy, so the controller replaces the
previously stored plan by an empty one and reports success, not
failed. -/
theorem run_optimization_counterexample :
    ¬ ((runOptimization (T := ℕ)
          ⟨some ⟨[(0, 5)], "arbitrage", 3, 1⟩, "pending", "arbitrage"⟩
          (.ok "arbitrage") .exc).current_plan =
        some ⟨[(0, 5)], "arbitrage", 3, 1⟩ ∧
      (runOptimization (T := ℕ)
          ⟨some ⟨[(0, 5)], "arbitrage", 3, 1⟩, "pending", "arbitrage"⟩
          (.ok "arbitrage") .exc).optimization_status = "failed") := by
  intro h
  have h1 := h.1
  simp [runOptimization, optimizeWithStrategy] at h1

/-- Claim C5 (amended): the controller reports failed exactly when the
preparation steps (forecast fetch and strategy selection) raise, and
then the previous plan is retained unchanged; when the selected
strategy optimization itself raises, the manager swallows the exception
and the controller stores an empty-schedule plan with status success. -/
theorem run_optimization_error_handling {T : Type} (st : CtrlOptState T)
    (preparation : PyOutcome String) (optimize_call : PyOutcome (StrategyResultRec T)) :
    ((runOptimization st preparation optimize_call).optimization_status = "failed" →
      (runOptimization st preparation optimize_call).current_plan = st.current_plan) ∧
    (preparation = .exc →
      (runOptimization st preparation optimize_call).optimization_status = "failed" ∧
      (runOptimization st preparation optimize_call).current_plan = st.current_plan) ∧
    (∀ name, preparation = .ok name → optimize_call = .exc →
      (runOptimization st preparation optimize_call).optimization_status = "success" ∧
      (runOptimization st preparation optimize_call).current_plan =
        some ⟨[], name, 0, 0⟩) := by
  rcases preparation with name | _
  · refine ⟨?_, ?_, ?_⟩
    · intro h
      exact absurd h (by simp [runOptimization])
    · intro h
      exact PyOutcome.noConfusion h
    · intro n hn hc
      injection hn with h
      subst h
      subst hc
      simp [runOptimization, optimizeWithStrategy]
  · refine ⟨?_, ?_, ?_⟩
    · intro _
      rfl
    · intro _
      exact ⟨rfl, rfl⟩
    · intro n hn
      exact PyOutcome.noConfusion hn

/-- Witness for run_optimization_error_handling: a preparation failure
retains the concrete stored plan with status failed, and a swallowed
strategy exception yields status success. -/
theorem run_optimization_error_handling_witness :
    (runOptimization (T := ℕ) ⟨some ⟨[(0, 5)], "arbitrage", 3, 1⟩, "pending", "arbitrage"⟩
        .exc .exc).optimization_status = "failed" ∧
    (runOptimization (T := ℕ) ⟨some ⟨[(0, 5)], "arbitrage", 3, 1⟩, "pending", "arbitrage"⟩
        .exc .exc).current_plan = some ⟨[(0, 5)], "arbitrage", 3, 1⟩ ∧
    (runOptimization (T := ℕ) ⟨some ⟨[(0, 5)], "arbitrage", 3, 1⟩, "pending", "arbitrage"⟩
        (.ok "arbitrage") .exc).optimization_status = "success" :=
  ⟨((run_optimization_error_handling _ .exc .exc).2.1 rfl).1,
   (run_optimization_error_handling
      (⟨some ⟨[(0, 5)], "arbitrage", 3, 1⟩, "pending", "arbitrage"⟩ : CtrlOptState ℕ)
      .exc .exc).1 ((run_optimization_error_handling _ .exc .exc).2.1 rfl).1,
   ((run_optimization_error_handling _ (.ok "arbitrage") .exc).2.2 "arbitrage" rfl rfl).1⟩

/-- Insertion of a value into an ascending list, helper for sortAsc. -/
def insertAsc (x : ℚ) : List ℚ → List ℚ
  | [] => [x]
  | y :: ys => if x ≤ y then x :: y :: ys else y :: insertAsc x ys

/-- Python builtin sorted(...) on numbers, ascending. -/
def sortAsc (xs : List ℚ) : List ℚ := xs.foldr insertAsc []

/-- Result dictionary of the arbitrage optimization (lp_optimizer.py,
return values of _cvxpy_arbitrage and _fallback_arbitrage). -/
structure ArbResult (T : Type) where
  schedule : List (T × ℚ)
  soc_schedule : List (T × ℚ)
  expected_revenue : ℚ
  expected_cost : ℚ
  expected_profit : ℚ
  energy_charged_kwh : ℚ
  energy_discharged_kwh : ℚ
  cycles : ℚ
  optimization_status : String
  solver : String
deriving Repr, DecidableEq

/-- Battery constraints used by the optimizer (lp_optimizer.py,
default_constraints, merged with caller overrides). -/
structure LpConstraints where
  power_charge_max_kw : ℚ := 100
  power_discharge_max_kw : ℚ := 100
  energy_capacity_kwh : ℚ := 200
  soc_min_percent : ℚ := 10
  soc_max_percent : ℚ := 90
  efficiency_charge : ℚ := 95/100
  efficiency_discharge : ℚ := 95/100
  timestep_hours : ℚ := 1
deriving Repr, DecidableEq

/-- Running accumulator of the heuristic fallback loop. -/
structure FallbackAcc where
  soc : ℚ
  total_revenue : ℚ
  total_cost : ℚ
  energy_charged : ℚ
  energy_discharged : ℚ
deriving Repr, DecidableEq

/-- Per-price loop of LinearProgrammingOptimizer._fallback_arbitrage:
charge at prices at or below the low threshold, discharge at prices at
or above the high threshold, idle otherwise; clamp the SoC to
[soc_min, soc_max] at the end of every step.  Returns the schedule, the
SoC schedule and the final accumulator. -/
def fallbackLoop {T : Type} (c : LpConstraints) (low high : ℚ) :
    List (T × ℚ) → FallbackAcc → List (T × ℚ) × List (T × ℚ) × FallbackAcc
  | [], acc => ([], [], acc)
  | (ts, price) :: rest, acc =>
      if price ≤ low ∧ acc.soc < c.soc_max_percent then
        let pCharge := pyMin c.power_charge_max_kw
          ((c.soc_max_percent - acc.soc) / 100 * c.energy_capacity_kwh / c.timestep_hours)
        let energyAdded := pCharge * c.efficiency_charge * c.timestep_hours
        let soc1 := acc.soc + energyAdded / c.energy_capacity_kwh * 100
        let soc2 := pyMax c.soc_min_percent (pyMin c.soc_max_percent soc1)
        let acc1 : FallbackAcc :=
          { soc := soc2
            total_revenue := acc.total_revenue
            total_cost := acc.total_cost + pCharge * c.timestep_hours * (price / 1000)
            energy_charged := acc.energy_charged + pCharge * c.timestep_hours
            energy_discharged := acc.energy_discharged }
        let r := fallbackLoop c low high rest acc1
        ((ts, -pCharge) :: r.1, (ts, soc2) :: r.2.1, r.2.2)
      else if price ≥ high ∧ acc.soc > c.soc_min_percent then
        let pDis := pyMin c.power_discharge_max_kw
          ((acc.soc - c.soc_min_percent) / 100 * c.energy_capacity_kwh / c.timestep_hours)
        let energyRemoved := pDis / c.efficiency_discharge * c.timestep_hours
        let soc1 := acc.soc - energyRemoved / c.energy_capacity_kwh * 100
        let soc2 := pyMax c.soc_min_percent (pyMin c.soc_max_percent soc1)
        let acc1 : FallbackAcc :=
          { soc := soc2
            total_revenue := acc.total_revenue + pDis * c.timestep_hours * (price / 1000)
            total_cost := acc.total_cost
            energy_charged := acc.energy_charged
            energy_discharged := acc.energy_discharged + pDis * c.timestep_hours }
        let r := fallbackLoop c low high rest acc1
        ((ts, pDis) :: r.1, (ts, soc2) :: r.2.1, r.2.2)
      else
        let soc2 := pyMax c.soc_min_percent (pyMin c.soc_max_percent acc.soc)
        let r := fallbackLoop c low high rest { acc with soc := soc2 }
        ((ts, 0) :: r.1, (ts, soc2) :: r.2.1, r.2.2)

/-- LinearProgrammingOptimizer._fallback_arbitrage (lp_optimizer.py).
For n >= 4 the thresholds are the sorted prices at positions n/4 and
3n/4, otherwise the first and the last sorted price. -/
def fallbackArbitrage {T : Type} (prices : List (T × ℚ)) (current_soc : ℚ)
    (c : LpConstraints) : ArbResult T :=
  let priceValues := prices.map Prod.snd
  if priceValues.length = 0 then
    { schedule := [], soc_schedule := [], expected_revenue := 0, expected_cost := 0,
      expected_profit := 0, energy_charged_kwh := 0, energy_discharged_kwh := 0,
      cycles := 0, optimization_status := "no_data", solver := "fallback" }
  else
    let sorted := sortAsc priceValues
    let n := sorted.length
    let lowThreshold := if 4 ≤ n then sorted.getD (n / 4) 0 else sorted.getD 0 0
    let highThreshold := if 4 ≤ n then sorted.getD (3 * n / 4) 0 else sorted.getLast?.getD 0
    let r := fallbackLoop c lowThreshold highThreshold prices
      ⟨current_soc, 0, 0, 0, 0⟩
    { schedule := r.1
      soc_schedule := r.2.1
      expected_revenue := r.2.2.total_revenue
      expected_cost := r.2.2.total_cost
      expected_profit := r.2.2.total_revenue - r.2.2.total_cost
      energy_charged_kwh := r.2.2.energy_charged
      energy_discharged_kwh := r.2.2.energy_discharged
      cycles := r.2.2.energy_discharged / (c.energy_capacity_kwh * 2)
      optimization_status := "heuristic"
      solver := "fallback" }

/-- Claim C7: calling the arbitrage optimizer with an empty price list
yields solver fallback, status no_data, an empty schedule and zero for
every metric (both entry points route the empty input to
_fallback_arbitrage, whose empty branch builds exactly this record). -/
theorem fallback_arbitrage_empty {T : Type} (current_soc : ℚ) (c : LpConstraints) :
    (fallbackArbitrage ([] : List (T × ℚ)) current_soc c).solver = "fallback" ∧
    (fallbackArbitrage ([] : List (T × ℚ)) current_soc c).optimization_status = "no_data" ∧
    (fallbackArbitrage ([] : List (T × ℚ)) current_soc c).schedule = [] ∧
    (fallbackArbitrage ([] : List (T × ℚ)) current_soc c).expected_revenue = 0 ∧
    (fallbackArbitrage ([] : List (T × ℚ)) current_soc c).expected_cost = 0 ∧
    (fallbackArbitrage ([] : List (T × ℚ)) current_soc c).expected_profit = 0 ∧
    (fallbackArbitrage ([] : List (T × ℚ)) current_soc c).energy_charged_kwh = 0 ∧
    (fallbackArbitrage ([] : List (T × ℚ)) current_soc c).energy_discharged_kwh = 0 ∧
    (fallbackArbitrage ([] : List (T × ℚ)) current_soc c).cycles = 0 :=
  ⟨rfl, rfl, rfl, rfl, rfl, rfl, rfl, rfl, rfl⟩

lemma fallbackLoop_schedule_timestamps {T : Type} (c : LpConstraints) (low high : ℚ)
    (ps : List (T × ℚ)) (acc : FallbackAcc) :
    (fallbackLoop c low high ps acc).1.map Prod.fst = ps.map Prod.fst := by
  induction ps generalizing acc with
  | nil => rfl
  | cons p rest ih =>
      obtain ⟨ts, price⟩ := p
      unfold fallbackLoop
      by_cases h1 : price ≤ low ∧ acc.soc < c.soc_max_percent
      · simp only [if_pos h1, List.map_cons]
        rw [ih]
      · simp only [if_neg h1]
        by_cases h2 : price ≥ high ∧ acc.soc > c.soc_min_percent
        · simp only [if_pos h2, List.map_cons]
          rw [ih]
        · simp only [if_neg h2, List.map_cons]
          rw [ih]

lemma fallbackLoop_soc_timestamps {T : Type} (c : LpConstraints) (low high : ℚ)
    (ps : List (T × ℚ)) (acc : FallbackAcc) :
    (fallbackLoop c low high ps acc).2.1.map Prod.fst = ps.map Prod.fst := by
  induction ps generalizing acc with
  | nil => rfl
  | cons p rest ih =>
      obtain ⟨ts, price⟩ := p
      unfold fallbackLoop
      by_cases h1 : price ≤ low ∧ acc.soc < c.soc_max_percent
      · simp only [if_pos h1, List.map_cons]
        rw [ih]
      · simp only [if_neg h1]
        by_cases h2 : price ≥ high ∧ acc.soc > c.soc_min_percent
        · simp only [if_pos h2, List.map_cons]
          rw [ih]
        · simp only [if_neg h2, List.map_cons]
          rw [ih]

lemma clamp_bounds (lo hi x : ℚ) (h : lo ≤ hi) :
    lo ≤ pyMax lo (pyMin hi x) ∧ pyMax lo (pyMin hi x) ≤ hi := by
  rw [pyMax_eq, pyMin_eq]
  exact ⟨le_max_left _ _, max_le h (min_le_left _ _)⟩

lemma fallbackLoop_soc_bounds {T : Type} (c : LpConstraints) (low high : ℚ)
    (h : c.soc_min_percent ≤ c.soc_max_percent)
    (ps : List (T × ℚ)) (acc : FallbackAcc) :
    ∀ x ∈ (fallbackLoop c low high ps acc).2.1,
      c.soc_min_percent ≤ x.2 ∧ x.2 ≤ c.soc_max_percent := by
  induction ps generalizing acc with
  | nil =>
      intro x hx
      cases hx
  | cons p rest ih =>
      obtain ⟨ts, price⟩ := p
      unfold fallbackLoop
      by_cases h1 : price ≤ low ∧ acc.soc < c.soc_max_percent
      · simp only [if_pos h1]
        intro x hx
        rcases List.mem_cons.mp hx with hx | hx
        · subst hx
          exact clamp_bounds _ _ _ h
        · exact ih _ x hx
      · simp only [if_neg h1]
        by_cases h2 : price ≥ high ∧ acc.soc > c.soc_min_percent
        · simp only [if_pos h2]
          intro x hx
          rcases List.mem_cons.mp hx with hx | hx
          · subst hx
            exact clamp_bounds _ _ _ h
          · exact ih _ x hx
        · simp only [if_neg h2]
          intro x hx
          rcases List.mem_cons.mp hx with hx | hx
          · subst hx
            exact clamp_bounds _ _ _ h
          · exact ih _ x hx

lemma fallbackLoop_schedule_length {T : Type} (c : LpConstraints) (low high : ℚ)
    (ps : List (T × ℚ)) (acc : FallbackAcc) :
    (fallbackLoop c low high ps acc).1.length = ps.length := by
  have h := fallbackLoop_schedule_timestamps c low high ps acc
  have := congrArg List.length h
  simpa using this

/-- Result assembly of LinearProgrammingOptimizer._cvxpy_arbitrage
(lp_optimizer.py, lines after a successful solve), modelled over an
arbitrary solver solution: p_net is the elementwise difference of the
discharge and charge vectors, the SoC schedule scales the N+1 energy
values, the schedule pairs timestamps[i] with p_net[i] for i < N, and
the returned dictionary pairs timestamps[i] with soc_schedule[i] for
every i < N+1; an out-of-range list index (Python IndexError) makes the
whole call raise, modelled as none. -/
def cvxpyAssemble {T : Type} (prices : List (T × ℚ)) (c : LpConstraints)
    (p_charge p_discharge energy : List ℚ) (status : String) : Option (ArbResult T) :=
  let timestamps := prices.map Prod.fst
  let prices_kwh := prices.map (fun p => p.2 / 1000)
  let n := prices.length
  let p_net := List.zipWith (fun d ch => d - ch) p_discharge p_charge
  let soc_sched := energy.map (fun e => e / c.energy_capacity_kwh * 100)
  let dt := c.timestep_hours
  do
    let schedule ← (List.range n).mapM (fun i => do
        let t ← timestamps.get? i
        let p ← p_net.get? i
        pure (t, p))
    let socPairs ← (List.range soc_sched.length).mapM (fun i => do
        let t ← timestamps.get? i
        let s ← soc_sched.get? i
        pure (t, s))
    let total_revenue := (List.zipWith (fun pd pk => pd * dt * pk) p_discharge prices_kwh).sum
    let total_cost := (List.zipWith (fun pc pk => pc * dt * pk) p_charge prices_kwh).sum
    let energy_charged := (p_charge.map (fun p => p * dt)).sum
    let energy_discharged := (p_discharge.map (fun p => p * dt)).sum
    pure { schedule := schedule
           soc_schedule := socPairs
           expected_revenue := total_revenue
           expected_cost := total_cost
           expected_profit := total_revenue - total_cost
           energy_charged_kwh := energy_charged
           energy_discharged_kwh := energy_discharged
           cycles := energy_discharged / (c.energy_capacity_kwh * 2)
           optimization_status := status
           solver := "cvxpy" }

/-- Claim C6 states the intended optimizer contract, but the LP path of
the code cannot deliver it: after any successful solve with N >= 1
steps the result assembly iterates the N+1 SoC values over the N
timestamps and raises IndexError, so optimize_arbitrage silently falls
back to the heuristic.  Concretely, for the spec scenario prices
[(t0, 50), (t1, 200)] with the optimal LP solution (charge 100 kW, then
discharge 90.25 kW, energies [100, 195, 100] kWh) the assembly raises
(none), while the heuristic fallback at the same input does satisfy the
claimed contract: N = 2 entries, the price timestamps, and every SoC
value within [10, 90]. -/
theorem cvxpy_assembly_index_error :
    cvxpyAssemble (T := ℕ) [(0, 50), (1, 200)] {} [100, 0] [0, 361/4] [100, 195, 100]
        "optimal" = none ∧
    (fallbackArbitrage (T := ℕ) [(0, 50), (1, 200)] 50 {}).schedule.length = 2 ∧
    (fallbackArbitrage (T := ℕ) [(0, 50), (1, 200)] 50 {}).schedule.map Prod.fst = [0, 1] ∧
    (fallbackArbitrage (T := ℕ) [(0, 50), (1, 200)] 50 {}).soc_schedule.Forall
      (fun x => 10 ≤ x.2 ∧ x.2 ≤ 90) := by
  refine ⟨rfl, ?_, ?_, ?_⟩
  · show (fallbackLoop {} 50 200 [(0, 50), (1, 200)] ⟨50, 0, 0, 0, 0⟩).1.length = 2
    rw [fallbackLoop_schedule_length]
    rfl
  · show (fallbackLoop {} 50 200 [(0, 50), (1, 200)] ⟨50, 0, 0, 0, 0⟩).1.map Prod.fst = [0, 1]
    rw [fallbackLoop_schedule_timestamps]
    rfl
  · rw [List.forall_iff_forall_mem]
    show ∀ x ∈ (fallbackLoop {} 50 200 [(0, 50), (1, 200)] ⟨50, 0, 0, 0, 0⟩).2.1, _
    exact fallbackLoop_soc_bounds {} 50 200 (by norm_num) _ _

/-- Linear-interpolation percentile as computed by numpy.percentile
with its default method (peak_shaving_strategy.py uses
np.percentile(load_values, 75)): with h = (n-1)*q/100 over the
ascending sorted data a, the value is
a[floor h] + (h - floor h) * (a[ceil h] - a[floor h]). -/
def npPercentile (xs : List ℚ) (q : ℚ) : ℚ :=
  let s := sortAsc xs
  let n := s.length
  let h := ((n : ℚ) - 1) * q / 100
  let lo := (⌊h⌋).toNat
  let hi := (⌈h⌉).toNat
  let a := s.getD lo 0
  let b := s.getD hi 0
  a + (h - (⌊h⌋ : ℚ)) * (b - a)

/-- Constraints used by PeakShavingStrategy.optimize
(peak_shaving_strategy.py, default_constraints merged with caller
overrides). -/
structure PsConstraints where
  power_discharge_max_kw : ℚ := 100
  power_charge_max_kw : ℚ := 100
  soc_min_percent : ℚ := 10
  soc_max_percent : ℚ := 90
deriving Repr, DecidableEq

/-- Per-step loop of PeakShavingStrategy.optimize: discharge
min(P_d_max, load - threshold) above the threshold while SoC is above
soc_min, charge min(P_c_max, 0.5 * threshold) below 0.7 times the
threshold while SoC is below soc_max, idle otherwise; the simplified
SoC bookkeeping moves by 2 percentage points and is clamped to
[soc_min, soc_max]. -/
def peakShavingLoop {T : Type} (c : PsConstraints) (thr : ℚ) :
    List (T × ℚ) → ℚ → List (T × ℚ)
  | [], _ => []
  | (ts, load) :: rest, soc =>
      let step : ℚ × ℚ :=
        if load > thr ∧ soc > c.soc_min_percent then
          (pyMin c.power_discharge_max_kw (load - thr), soc - 2)
        else if load < thr * (7/10) ∧ soc < c.soc_max_percent then
          (-(pyMin c.power_charge_max_kw (thr * (1/2))), soc + 2)
        else
          (0, soc)
      let soc2 := pyMax c.soc_min_percent (pyMin c.soc_max_percent step.2)
      (ts, step.1) :: peakShavingLoop c thr rest soc2

/-- Result of PeakShavingStrategy.optimize relevant to the claims
(schedule plus the peak_threshold_kw metadata entry and the savings
estimate). -/
structure PeakShavingResult (T : Type) where
  schedule : List (T × ℚ)
  peak_threshold_kw : ℚ
  expected_profit : ℚ
  confidence_score : ℚ
deriving Repr, DecidableEq

/-- PeakShavingStrategy.optimize (peak_shaving_strategy.py) for a
nonempty load forecast: the threshold is the 75th percentile of the
load values (default peak_threshold_percentile), the schedule is built
by peakShavingLoop, and the savings estimate follows the source. -/
def peakShavingOptimize {T : Type} (load_forecast : List (T × ℚ))
    (current_soc : ℚ) (c : PsConstraints) : PeakShavingResult T :=
  let load_values := load_forecast.map Prod.snd
  let thr := npPercentile load_values 75
  let schedule := peakShavingLoop c thr load_forecast current_soc
  let maxLoad :=
    match load_values with
    | [] => 0
    | x :: xs => xs.foldl pyMax x
  let peak_reduction := maxLoad - thr
  { schedule := schedule
    peak_threshold_kw := thr
    expected_profit := peak_reduction * (15/100) * load_forecast.length / 24
    confidence_score := 7/10 }

lemma peak_threshold_concrete :
    npPercentile [10, 10, 10, 50, 10, 10] 75 = 10 := by
  have hs : sortAsc [10, 10, 10, 50, 10, 10] = [10, 10, 10, 10, 10, 50] := by
    norm_num [sortAsc, insertAsc]
  have hfl : ⌊(15:ℚ)/4⌋ = 3 := by norm_num
  have hcl : ⌈(15:ℚ)/4⌉ = 4 := by
    rw [Int.ceil_eq_iff]
    norm_num
  have hg3 : ([10, 10, 10, 10, 10, 50] : List ℚ)[Int.toNat 3] = 10 := rfl
  have hg4 : ([10, 10, 10, 10, 10, 50] : List ℚ)[Int.toNat 4] = 10 := rfl
  simp only [npPercentile]
  rw [hs]
  norm_num [hfl, hcl, hg3, hg4]

lemma peak_schedule_concrete :
    peakShavingLoop ({} : PsConstraints) 10
      [((0:ℕ), (10:ℚ)), (1, 10), (2, 10), (3, 50), (4, 10), (5, 10)] 70 =
      [(0, 0), (1, 0), (2, 0), (3, 40), (4, 0), (5, 0)] := by
  norm_num [peakShavingLoop, pyMin, pyMax]

/-- Claim C8 as stated fails on the code at its own concrete scenario:
numpy's linear-interpolation 75th percentile of [10, 10, 10, 50, 10, 10]
is 10 kW, not 25 kW, so at t = 3 the strategy discharges
min(P_d_max, 50 - 10) = 40 kW, not 25 kW. -/
theorem peak_shaving_counterexample :
    ¬ ((peakShavingOptimize (T := ℕ) [(0, 10), (1, 10), (2, 10), (3, 50), (4, 10), (5, 10)]
          70 {}).peak_threshold_kw = 25 ∧
       ((peakShavingOptimize (T := ℕ) [(0, 10), (1, 10), (2, 10), (3, 50), (4, 10), (5, 10)]
          70 {}).schedule.getD 3 (0, 0)).2 = 25) := by
  intro h
  have h1 := h.1
  rw [show (peakShavingOptimize (T := ℕ)
      [(0, 10), (1, 10), (2, 10), (3, 50), (4, 10), (5, 10)] 70
      ({} : PsConstraints)).peak_threshold_kw =
      npPercentile [10, 10, 10, 50, 10, 10] 75 from rfl, peak_threshold_concrete] at h1
  norm_num at h1

/-- Claim C8 (amended): the strategy discharges min(P_d_max,
load - threshold) above the 75th-percentile threshold with SoC above
soc_min and charges min(P_c_max, 0.5 * threshold) below 0.7 times the
threshold with SoC below soc_max; for load [10, 10, 10, 50, 10, 10] kW
and soc0 = 70 percent the (linear-interpolation) threshold is 10 kW,
the strategy discharges 40 kW at t = 3 and idles elsewhere (10 is
neither above 10 nor below 7). -/
theorem peak_shaving_amended :
    (peakShavingOptimize (T := ℕ) [(0, 10), (1, 10), (2, 10), (3, 50), (4, 10), (5, 10)]
        70 {}).peak_threshold_kw = 10 ∧
    (peakShavingOptimize (T := ℕ) [(0, 10), (1, 10), (2, 10), (3, 50), (4, 10), (5, 10)]
        70 {}).schedule = [(0, 0), (1, 0), (2, 0), (3, 40), (4, 0), (5, 0)] := by
  constructor
  · exact peak_threshold_concrete
  · show peakShavingLoop ({} : PsConstraints)
      (npPercentile [10, 10, 10, 50, 10, 10] 75)
      [((0:ℕ), (10:ℚ)), (1, 10), (2, 10), (3, 50), (4, 10), (5, 10)] 70 = _
    rw [peak_threshold_concrete]
    exact peak_schedule_concrete

/-- Register definition fields used by the Modbus read and write paths
(modbus_client.py, _clone_definition and add_register_mapping); the
data_type string is stored lowercased, as produced by
definition.get("data_type", "uint16").lower(). -/
structure RegisterDef where
  address : ℕ
  function : ℕ := 3
  count : ℕ := 1
  data_type : String := "uint16"
  scale : ℚ := 1
  offset : ℚ := 0
  signed : Bool := false
  zero_based : Bool := false
deriving Repr, DecidableEq

/-- Python 3 builtin round to an integer: round half to even. -/
def pyRound (q : ℚ) : ℤ :=
  if q - (⌊q⌋ : ℚ) = 1/2 then (if ⌊q⌋ % 2 = 0 then ⌊q⌋ else ⌊q⌋ + 1) else round q

lemma abs_pyRound_sub_le (q : ℚ) : |(pyRound q : ℚ) - q| ≤ 1/2 := by
  unfold pyRound
  by_cases h : q - (⌊q⌋ : ℚ) = 1/2
  · by_cases he : ⌊q⌋ % 2 = 0
    · rw [if_pos h, if_pos he, show ((⌊q⌋ : ℚ) - q) = -(1/2) by linarith]
      norm_num [abs_le]
    · rw [if_pos h, if_neg he]
      push_cast
      rw [show ((⌊q⌋ : ℚ) + 1 - q) = 1/2 by linarith]
      norm_num [abs_le]
  · rw [if_neg h, abs_sub_comm]
    exact abs_sub_round q

/-- ModbusClient._combine_words (modbus_client.py): big-endian
accumulation `raw = (raw << 16) | (word & 0xFFFF)` (the accumulator is
nonnegative with zero low bits, so the bitwise or is addition and the
mask is mod 65536), followed by two's-complement sign extension over
16 * len(words) bits when signed. -/
def combineWords (words : List ℤ) (signed : Bool) : ℤ :=
  let raw := words.foldl (fun r w => r * 65536 + w % 65536) 0
  if signed ∧ raw ≥ 2 ^ (16 * words.length - 1) then raw - 2 ^ (16 * words.length) else raw

/-- ModbusClient._decode_value (modbus_client.py): combine the first
count words for 32-bit or multi-word types, else take the single word
with optional 16-bit sign fix, then apply value * scale + offset.
The signed flag is `definition.get("signed") or
data_type.startswith("int")`, modelled by the 3-character prefix. -/
def decodeValue (d : RegisterDef) (raw : List ℤ) : Option ℚ :=
  if raw = [] then none
  else
    let signed := d.signed || (d.data_type.take 3 == "int")
    let value : ℤ :=
      if d.data_type = "uint32" ∨ d.data_type = "int32" ∨ d.data_type = "float32"
          ∨ 1 < d.count then
        combineWords (raw.take d.count) signed
      else
        let v := raw.headD 0
        if signed ∧ v ≥ 0x8000 then v - 0x10000 else v
    some ((value : ℚ) * d.scale + d.offset)

/-- Encoding performed by ModbusClient.write_holding_register when a
definition is supplied: int(round((value - offset) / scale)) for a
nonzero scale, else int(round(value)). -/
def writeEncode (d : RegisterDef) (v : ℚ) : ℤ :=
  if d.scale ≠ 0 then pyRound ((v - d.offset) / d.scale) else pyRound v

/-- Big-endian 16-bit word decomposition of a natural number,
most significant word first. -/
def toWords : (count : ℕ) → (m : ℕ) → List ℤ
  | 0, _ => []
  | c + 1, m => ((m / 2 ^ (16 * c) : ℕ) : ℤ) :: toWords c (m % 2 ^ (16 * c))

/-- Modelled from the spec: the device register file stores the written
integer modulo 2^(16*count) and a read returns its 16-bit words,
high word first (spec section 4.1, big-endian word order). -/
def storedWords (d : RegisterDef) (e : ℤ) : List ℤ :=
  toWords d.count (e % 2 ^ (16 * d.count)).toNat

lemma toWords_length (c : ℕ) : ∀ m : ℕ, (toWords c m).length = c := by
  induction c with
  | zero => intro m; rfl
  | succ c ih =>
      intro m
      simp only [toWords, List.length_cons, ih]

lemma foldl_toWords (c : ℕ) : ∀ (m : ℕ) (a : ℤ), m < 2 ^ (16 * c) →
    (toWords c m).foldl (fun r w => r * 65536 + w % 65536) a = a * 2 ^ (16 * c) + m := by
  induction c with
  | zero =>
      intro m a hm
      have hm0 : m = 0 := by
        simpa using hm
      subst hm0
      simp [toWords]
  | succ c ih =>
      intro m a hm
      have hpow : (0:ℕ) < 2 ^ (16 * c) := Nat.pos_pow_of_pos _ (by norm_num)
      have hdiv : m / 2 ^ (16 * c) < 2 ^ 16 := by
        apply Nat.div_lt_of_lt_mul
        calc m < 2 ^ (16 * (c + 1)) := hm
          _ = 2 ^ (16 * c) * 2 ^ 16 := by
              rw [show 16 * (c + 1) = 16 * c + 16 by ring, pow_add]
      have hw0 : (0:ℤ) ≤ ((m / 2 ^ (16 * c) : ℕ) : ℤ) := Int.natCast_nonneg _
      have hwlt : ((m / 2 ^ (16 * c) : ℕ) : ℤ) < 65536 := by
        have := hdiv
        exact_mod_cast this
      have hmod : ((m / 2 ^ (16 * c) : ℕ) : ℤ) % 65536 = ((m / 2 ^ (16 * c) : ℕ) : ℤ) :=
        Int.emod_eq_of_lt hw0 hwlt
      simp only [toWords, List.foldl_cons]
      rw [hmod, ih (m % 2 ^ (16 * c)) _ (Nat.mod_lt _ hpow)]
      have hsplit : (m / 2 ^ (16 * c)) * 2 ^ (16 * c) + m % 2 ^ (16 * c) = m := by
        rw [mul_comm]
        exact Nat.div_add_mod m (2 ^ (16 * c))
      have hsplitz : ((m / 2 ^ (16 * c) : ℕ) : ℤ) * 2 ^ (16 * c) + ((m % 2 ^ (16 * c) : ℕ) : ℤ)
          = (m : ℤ) := by
        exact_mod_cast congrArg (fun x : ℕ => (x : ℤ)) hsplit
      calc (a * 65536 + ((m / 2 ^ (16 * c) : ℕ) : ℤ)) * 2 ^ (16 * c) + ((m % 2 ^ (16 * c) : ℕ) : ℤ)
          = a * (65536 * 2 ^ (16 * c)) +
            (((m / 2 ^ (16 * c) : ℕ) : ℤ) * 2 ^ (16 * c) + ((m % 2 ^ (16 * c) : ℕ) : ℤ)) := by
              ring
        _ = a * 2 ^ (16 * (c + 1)) + (m : ℤ) := by
              rw [hsplitz, show (65536:ℤ) = 2 ^ 16 by norm_num,
                show 16 * (c + 1) = 16 * c + 16 by ring, pow_add]
              ring

lemma signExtend_recover (k : ℕ) (hk : 1 ≤ k) (e : ℤ) (s : Bool)
    (hfit : if s then -(2 ^ (16 * k - 1)) ≤ e ∧ e < 2 ^ (16 * k - 1)
            else 0 ≤ e ∧ e < 2 ^ (16 * k)) :
    (if s ∧ e % 2 ^ (16 * k) ≥ 2 ^ (16 * k - 1) then e % 2 ^ (16 * k) - 2 ^ (16 * k)
     else e % 2 ^ (16 * k)) = e := by
  have hM : (0:ℤ) < 2 ^ (16 * k) := by positivity
  have hH : (0:ℤ) < 2 ^ (16 * k - 1) := by positivity
  have hMH : (2:ℤ) ^ (16 * k) = 2 * 2 ^ (16 * k - 1) := by
    obtain ⟨j, hj⟩ : ∃ j, 16 * k = j + 1 := ⟨16 * k - 1, by omega⟩
    rw [hj, pow_succ, show j + 1 - 1 = j by omega]
    ring
  rcases s with _ | _
  · simp only [Bool.false_eq_true, false_and, if_false]
    simp only [if_neg (by simp : ¬(false : Bool) = true)] at hfit
    exact Int.emod_eq_of_lt hfit.1 hfit.2
  · simp only [if_pos rfl] at hfit
    by_cases he : 0 ≤ e
    · have hlt : e < 2 ^ (16 * k) := by linarith [hfit.2]
      have hr : e % 2 ^ (16 * k) = e := Int.emod_eq_of_lt he hlt
      rw [hr, if_neg]
      intro hcon
      exact absurd hcon.2 (not_le.mpr hfit.2)
    · push_neg at he
      have h1 : 0 ≤ e + 2 ^ (16 * k) := by linarith [hfit.1]
      have h2 : e + 2 ^ (16 * k) < 2 ^ (16 * k) := by linarith
      have hr : e % 2 ^ (16 * k) = e + 2 ^ (16 * k) := by
        have hmm : (e + 2 ^ (16 * k) * 1) % 2 ^ (16 * k) = e % 2 ^ (16 * k) :=
          Int.add_mul_emod_self_left e (2 ^ (16 * k)) 1
        rw [mul_one] at hmm
        rw [← hmm]
        exact Int.emod_eq_of_lt h1 h2
      rw [hr, if_pos]
      · ring
      · refine ⟨rfl, ?_⟩
        have := hfit.1
        linarith

lemma combineWords_stored (c : ℕ) (hc : 1 ≤ c) (e : ℤ) (s : Bool)
    (hfit : if s then -(2 ^ (16 * c - 1)) ≤ e ∧ e < 2 ^ (16 * c - 1)
            else 0 ≤ e ∧ e < 2 ^ (16 * c)) :
    combineWords (toWords c (e % 2 ^ (16 * c)).toNat) s = e := by
  have hM : (0:ℤ) < 2 ^ (16 * c) := by positivity
  have hr0 : 0 ≤ e % 2 ^ (16 * c) := Int.emod_nonneg e (ne_of_gt hM)
  have hrM : e % 2 ^ (16 * c) < 2 ^ (16 * c) := Int.emod_lt_of_pos e hM
  have hmn : (((e % 2 ^ (16 * c)).toNat : ℕ) : ℤ) = e % 2 ^ (16 * c) :=
    Int.toNat_of_nonneg hr0
  have hlt : (e % 2 ^ (16 * c)).toNat < 2 ^ (16 * c) := by
    rw [← Nat.cast_lt (α := ℤ)]
    rw [hmn]
    push_cast
    exact hrM
  have hfold := foldl_toWords c (e % 2 ^ (16 * c)).toNat 0 hlt
  simp only [combineWords, toWords_length]
  rw [hfold, hmn]
  rw [zero_mul, zero_add]
  exact signExtend_recover c hc e s hfit

lemma storedWords_ne_nil (d : RegisterDef) (e : ℤ) (hc : 1 ≤ d.count) :
    storedWords d e ≠ [] := by
  unfold storedWords
  obtain ⟨c, hcc⟩ : ∃ c, d.count = c + 1 := ⟨d.count - 1, by omega⟩
  rw [hcc]
  simp [toWords]

lemma decode_stored (d : RegisterDef) (e : ℤ) (hc : 1 ≤ d.count)
    (hfit : if (d.signed || (d.data_type.take 3 == "int")) then
              -(2 ^ (16 * d.count - 1)) ≤ e ∧ e < 2 ^ (16 * d.count - 1)
            else 0 ≤ e ∧ e < 2 ^ (16 * d.count)) :
    decodeValue d (storedWords d e) = some ((e : ℚ) * d.scale + d.offset) := by
  unfold decodeValue
  rw [if_neg (storedWords_ne_nil d e hc)]
  have hval :
      (if d.data_type = "uint32" ∨ d.data_type = "int32" ∨ d.data_type = "float32"
          ∨ 1 < d.count then
        combineWords ((storedWords d e).take d.count) (d.signed || (d.data_type.take 3 == "int"))
      else
        let v := (storedWords d e).headD 0
        if (d.signed || (d.data_type.take 3 == "int")) ∧ v ≥ 0x8000 then v - 0x10000 else v) =
      e := by
    by_cases hb : d.data_type = "uint32" ∨ d.data_type = "int32" ∨ d.data_type = "float32"
        ∨ 1 < d.count
    · rw [if_pos hb]
      have hlen : (storedWords d e).length = d.count := toWords_length _ _
      rw [← hlen, List.take_length]
      exact combineWords_stored d.count hc e _ hfit
    · rw [if_neg hb]
      push_neg at hb
      have hc1 : d.count = 1 := by omega
      have hM : (0:ℤ) < 2 ^ (16 * d.count) := by positivity
      have hr0 : 0 ≤ e % 2 ^ (16 * d.count) := Int.emod_nonneg e (ne_of_gt hM)
      have hhead : (storedWords d e).headD 0 = e % 2 ^ (16 * d.count) := by
        unfold storedWords
        rw [hc1]
        simp only [toWords, Nat.mul_zero, pow_zero, Nat.div_one, List.headD_cons]
        rw [Int.toNat_of_nonneg]
        rw [← hc1]
        exact hr0
      rw [hhead]
      have hrec := signExtend_recover d.count hc e
        (d.signed || (d.data_type.take 3 == "int")) hfit
      rw [show (0x8000 : ℤ) = 2 ^ (16 * d.count - 1) by rw [hc1]; norm_num,
        show (0x10000 : ℤ) = 2 ^ (16 * d.count) by rw [hc1]; norm_num]
      exact hrec
  simp only [hval]

/-- Claim C9: for a register definition with function code 3 and
nonzero scale, writing v encodes e = round((v - offset)/scale); reading
the stored words back and decoding them with raw * scale + offset
yields a value within one least significant bit (|scale|) of v,
provided the encoded integer fits the register width (16 * count bits,
two's complement when the type is signed). -/
theorem register_roundtrip (d : RegisterDef) (v : ℚ)
    (_hfun : d.function = 3) (hscale : d.scale ≠ 0) (hcount : 1 ≤ d.count)
    (hfit : if (d.signed || (d.data_type.take 3 == "int")) then
              -(2 ^ (16 * d.count - 1)) ≤ writeEncode d v ∧
                writeEncode d v < 2 ^ (16 * d.count - 1)
            else 0 ≤ writeEncode d v ∧ writeEncode d v < 2 ^ (16 * d.count)) :
    ∃ w, decodeValue d (storedWords d (writeEncode d v)) = some w ∧
      |w - v| ≤ |d.scale| := by
  refine ⟨(writeEncode d v : ℚ) * d.scale + d.offset,
    decode_stored d _ hcount hfit, ?_⟩
  have he : writeEncode d v = pyRound ((v - d.offset) / d.scale) := by
    unfold writeEncode
    rw [if_pos hscale]
  rw [he]
  have hx : ((v - d.offset) / d.scale) * d.scale = v - d.offset :=
    div_mul_cancel₀ _ hscale
  have hb := abs_pyRound_sub_le ((v - d.offset) / d.scale)
  calc |(pyRound ((v - d.offset) / d.scale) : ℚ) * d.scale + d.offset - v|
      = |((pyRound ((v - d.offset) / d.scale) : ℚ) - (v - d.offset) / d.scale) * d.scale| := by
        rw [sub_mul, hx]
        congr 1
        ring
    _ = |(pyRound ((v - d.offset) / d.scale) : ℚ) - (v - d.offset) / d.scale| * |d.scale| :=
        abs_mul _ _
    _ ≤ (1/2) * |d.scale| := mul_le_mul_of_nonneg_right hb (abs_nonneg _)
    _ ≤ |d.scale| := by
        have h0 := abs_nonneg d.scale
        linarith

/-- Witness for register_roundtrip: the Hithium-style current register
(u16, scale 0.1, offset -3200) written with 12.34 A encodes 32123,
and decoding the stored word returns a value within 0.1 of 12.34. -/
theorem register_roundtrip_witness :
    ∃ w, decodeValue ⟨3, 3, 1, "uint16", 1/10, -3200, false, false⟩
        (storedWords ⟨3, 3, 1, "uint16", 1/10, -3200, false, false⟩
          (writeEncode ⟨3, 3, 1, "uint16", 1/10, -3200, false, false⟩ (617/50))) = some w ∧
      |w - 617/50| ≤ |(1/10 : ℚ)| := by
  have he : writeEncode ⟨3, 3, 1, "uint16", 1/10, -3200, false, false⟩ (617/50) = 32123 := by
    norm_num [writeEncode, pyRound, round_eq]
  refine register_roundtrip _ _ rfl (by norm_num) (by norm_num) ?_
  rw [if_neg (by decide :
    ¬ (((false : Bool) || (("uint16".take 3 == "int") : Bool)) = true))]
  rw [he]
  norm_num
